import Mathlib

/-!
Verification of the VOPR worker / VOPR-assignment scheduler sources of the
tigerbeetle `vopr_hub` subsystem.

The development shallowly embeds:
* the worker driver `vopr.zig` (embedded in `src/vopr_hub/SETUP.md`):
  the exit-code disposition of `run_simulator`, the byte layout built by
  `send_report`, the failure handling of `send_report`, and the
  rerun-in-Debug-mode control flow of `run_simulator`;
* the assignment scheduler `vopr_organizer/main.go`:
  `set_environment_variables`, `checkout_branch`, `get_vopr_assignments`,
  `get_commit_hashes`, and the tail of `main`.

External effects (git commands, HTTP page fetches, TCP, the child process)
are modelled as explicit oracle parameters; machine integers are modelled
as `Nat` (the scheduler's configuration enforces positivity of the two
integer variables before they are used).
-/

namespace VoprHub

/-! ## Worker: bug kinds and exit-code disposition (vopr.zig) -/

/-- The `Bug` enum of vopr.zig: `crash = 127`, `liveness = 128`,
`correctness = 129` (the values are the simulator exit codes). -/
inductive Bug where
  | crash
  | liveness
  | correctness
deriving DecidableEq, Repr

/-- The numeric value of the `Bug` enum (`@enumToInt`), which is the
simulator exit code associated with the bug. -/
def bug_exit_code : Bug → Nat
  | .crash => 127
  | .liveness => 128
  | .correctness => 129

/-- The bug tag used in the wire report (`create_report`):
correctness ↦ 1, liveness ↦ 2, crash ↦ 3. -/
def bug_type : Bug → Nat
  | .correctness => 1
  | .liveness => 2
  | .crash => 3

/-- Result of the `switch (exit_code)` in `run_simulator`: `0` means the
seed passed (no bug), 127/128/129 select a `Bug`, and any other exit code
falls to the `else` branch, which panics. -/
inductive Disposition where
  | no_bug
  | bug (b : Bug)
  | fatal_unexpected
deriving DecidableEq, Repr

/-- The exit-code switch of `run_simulator` in vopr.zig. -/
def exit_code_result (exit_code : Nat) : Disposition :=
  if exit_code = 0 then .no_bug
  else if exit_code = 127 then .bug .crash
  else if exit_code = 128 then .bug .liveness
  else if exit_code = 129 then .bug .correctness
  else .fatal_unexpected

/-! ## Worker: the byte array written by `send_report` (vopr.zig) -/

/-- The eight big-endian bytes of the 64-bit seed.  vopr.zig stores the
seed little-endian, applies `@byteSwap` and bit-casts, which yields the
big-endian byte order on the wire. -/
def seed_bytes_big_endian (seed : Nat) : List Nat :=
  [seed / 2 ^ 56 % 256, seed / 2 ^ 48 % 256, seed / 2 ^ 40 % 256,
   seed / 2 ^ 32 % 256, seed / 2 ^ 24 % 256, seed / 2 ^ 16 % 256,
   seed / 2 ^ 8 % 256, seed % 256]

/-- The byte array assembled by `send_report` in vopr.zig and written with
`writer.writeAll(&byte_array)`: `byte_array[0] = message.bug`, then the
eight big-endian seed bytes, then the twenty commit bytes.  The array is
declared as `[29]u8`; no checksum is computed or prepended. -/
def send_report_byte_array (bug : Bug) (seed : Nat) (commit : List Nat) : List Nat :=
  bug_type bug :: (seed_bytes_big_endian seed ++ commit)

/-! ## Worker: failure handling in `send_report` (vopr.zig) -/

/-- Outcome of the three fallible I/O steps of `send_report`:
`tcpConnectToAddress`, `writer.writeAll`, `reader.readAll`.
`read_reply = none` models a read error; `some n` models success with
`n` bytes read. -/
structure TcpAttempt where
  connect_ok : Bool
  write_ok : Bool
  read_reply : Option Nat
deriving DecidableEq, Repr

/-- What becomes of the worker after `send_report`:
either it terminates via `fatal` (which calls `os.exit(1)`), or the call
returns and the worker continues (`got_reply` records whether
`bytes_read > 0`). -/
inductive SendResult where
  | fatal_exit (code : Nat)
  | completed (got_reply : Bool)
deriving DecidableEq, Repr

/-- Control flow of `send_report` in vopr.zig: every one of the three I/O
failures is caught with `catch |err| fatal(...)`, and `fatal` exits the
process with code 1; on success the reply length is inspected and the
function returns. -/
def send_report_control (t : TcpAttempt) : SendResult :=
  if !t.connect_ok then .fatal_exit 1
  else if !t.write_ok then .fatal_exit 1
  else
    match t.read_reply with
    | none => .fatal_exit 1
    | some bytes_read => .completed (decide (0 < bytes_read))

/-! ## Worker: the ReleaseSafe → Debug rerun of `run_simulator` (vopr.zig)

`run_simulator` is recursive, but the only recursive call is the
ReleaseSafe branch invoking the Debug mode, and the Debug branch never
recurses, so the recursion is unrolled into two functions.  The child
process is an oracle `exitOf : Mode → Nat` giving the simulator exit code
of the run of the (fixed) seed in each build mode. -/

/-- The two build modes `run_simulator` is invoked with. -/
inductive Mode where
  | ReleaseSafe
  | Debug
deriving DecidableEq, Repr

/-- Observable events of a `run_simulator` call tree: a child simulator
run in a given mode, and the transmission of a bug report. -/
inductive Event where
  | child_run (m : Mode)
  | report_sent (b : Bug)
deriving DecidableEq, Repr

/-- Final outcome of a `run_simulator` call: the returned `?Bug`, or a
panic (unexpected exit code, failed `assert`, or `.?` on `null`). -/
inductive RunOutcome where
  | returned (b : Option Bug)
  | panicked
deriving DecidableEq, Repr

/-- `run_simulator(seed, .Debug, send_address)`: runs the child once; on a
bug, sends the report to the hub when a send address is present (the
`else` branch of `if (mode == .ReleaseSafe)`). -/
def run_simulator_debug (exitOf : Mode → Nat) (send_address : Bool) :
    RunOutcome × List Event :=
  match exit_code_result (exitOf .Debug) with
  | .fatal_unexpected => (.panicked, [.child_run .Debug])
  | .no_bug => (.returned none, [.child_run .Debug])
  | .bug b =>
    if send_address then
      (.returned (some b), [.child_run .Debug, .report_sent b])
    else
      (.returned (some b), [.child_run .Debug])

/-- `run_simulator(seed, .ReleaseSafe, send_address)`: runs the child
once; on a bug, reruns the same seed in Debug mode and asserts
`bug == run_simulator(..., .Debug, ...).?` — a Debug run that returns
`null` panics on the `.?` unwrap, and a Debug run with a different bug
fails the `assert`. -/
def run_simulator_release_safe (exitOf : Mode → Nat) (send_address : Bool) :
    RunOutcome × List Event :=
  match exit_code_result (exitOf .ReleaseSafe) with
  | .fatal_unexpected => (.panicked, [.child_run .ReleaseSafe])
  | .no_bug => (.returned none, [.child_run .ReleaseSafe])
  | .bug b =>
    let debug_result := run_simulator_debug exitOf send_address
    let events := .child_run .ReleaseSafe :: debug_result.2
    match debug_result.1 with
    | .panicked => (.panicked, events)
    | .returned none => (.panicked, events)
    | .returned (some b2) =>
      if b2 = b then (.returned (some b), events) else (.panicked, events)


/-! ## Scheduler: `get_vopr_assignments` (vopr_organizer/main.go)

`num_voprs` and `current_vopr` are Go `int`s; `set_environment_variables`
exits unless both are positive, so they are modelled as `Nat`.  Go panics
on integer division by zero, so division and modulo are modelled as
`Option`-valued operations and `get_vopr_assignments` propagates the
panic as `none`. -/

/-- Go integer division; `none` models the runtime panic on a zero
divisor. -/
def go_div (a b : Nat) : Option Nat :=
  if b = 0 then none else some (a / b)

/-- Go integer remainder; `none` models the runtime panic on a zero
divisor. -/
def go_mod (a b : Nat) : Option Nat :=
  if b = 0 then none else some (a % b)

/-- The `for i < num_voprs` loop of `get_vopr_assignments`: each outer
iteration appends `repeats` copies of the branch at `branch_index` (the
inner `for j` loop, advancing `i` by `repeats`), appends one further copy
while `remainders` is positive (advancing `i` once more), and increments
`branch_index`.  `fuel` bounds the number of outer iterations; the caller
passes `num_voprs`, which the loop never exhausts because `i` advances by
at least one in every productive iteration. -/
def assign_loop (branches : List String) (num_voprs repeats : Nat) :
    Nat → Nat → Nat → Nat → List String → List String
  | 0, _, _, _, acc => acc
  | fuel + 1, i, remainders, branch_index, acc =>
    if i < num_voprs then
      let b := branches.getD branch_index ""
      let acc2 := acc ++ List.replicate repeats b
      let i2 := i + repeats
      if 0 < remainders then
        assign_loop branches num_voprs repeats fuel (i2 + 1) (remainders - 1)
          (branch_index + 1) (acc2 ++ [b])
      else
        assign_loop branches num_voprs repeats fuel i2 remainders
          (branch_index + 1) acc2
    else acc

/-- `get_vopr_assignments` of vopr_organizer/main.go: when there are pull
request branches, slot 1 gets "main" and the loop distributes the branches
over the remaining `num_voprs - 1` slots with `repeats = (num_voprs-1) /
num_pull_requests` and `remainders = (num_voprs-1) % num_pull_requests`;
when there are none, every slot gets "main". -/
def get_vopr_assignments (num_voprs : Nat) (vopr_branches : List String) :
    Option (List String) :=
  let num_pull_requests := vopr_branches.length
  if 0 < num_pull_requests then
    match go_div (num_voprs - 1) num_pull_requests,
        go_mod (num_voprs - 1) num_pull_requests with
    | some repeats, some remainders =>
      some (assign_loop vopr_branches num_voprs repeats num_voprs 1 remainders 0
        ["main"])
    | _, _ => none
  else
    some (List.replicate num_voprs "main")

/-- Specification-side layout (from the spec's words, for the refinement
claim about `get_vopr_assignments`): branches in order, each repeated
`repeats` times, with the first `remainders` branches receiving one extra
assignment — "round-robin with the leftovers distributed to the earliest
entries". -/
def round_robin_blocks (repeats : Nat) : List String → Nat → List String
  | [], _ => []
  | b :: bs, remainders =>
    List.replicate repeats b ++ (if 0 < remainders then [b] else []) ++
      round_robin_blocks repeats bs (remainders - 1)


/-! ## Scheduler: `checkout_branch` (vopr_organizer/main.go)

The three git commands are oracles over an abstract working-copy state;
`none` models a command exiting non-zero. -/

/-- Abstract state of the working copy.  `head` is the branch/commit the
working directory currently has checked out. -/
structure GitState where
  head : String

/-- The git commands run by `checkout_branch`: `git fetch --all`,
`git checkout <branch>`, `git branch --show-current` (whose captured
output is the verification input). -/
structure Git where
  fetch : GitState → Option GitState
  checkout : String → GitState → Option GitState
  show_current : GitState → Option String

/-- `checkout_branch` of vopr_organizer/main.go: fetch all refs, check the
requested branch out, read the current branch, and succeed only when the
output equals the requested branch; each failing command returns the error
immediately. -/
def checkout_branch (g : Git) (branch : String) (s : GitState) : Option GitState :=
  match g.fetch s with
  | none => none
  | some s1 =>
    match g.checkout branch s1 with
    | none => none
    | some s2 =>
      match g.show_current s2 with
      | none => none
      | some current_branch =>
        if current_branch = branch then some s2 else none

/-- A faithful git oracle for concrete evaluation: fetching changes
nothing, checking out a revision moves `head` to it, and
`git branch --show-current` reports `head`. -/
def git_exact : Git :=
  { fetch := fun s => some s
    checkout := fun branch _ => some { head := branch }
    show_current := fun s => some s.head }

/-! ## Scheduler: `set_environment_variables` (vopr_organizer/main.go) -/

/-- The process environment (`os.LookupEnv`). -/
def Env : Type := String → Option String

/-- The configuration read at startup. -/
structure Config where
  tigerbeetle_directory : String
  repository_url : String
  num_voprs : Int
  current_vopr : Int
deriving Repr

/-- How `set_environment_variables` leaves the process: normal return
with the configuration, `os.Exit(code)` after logging `message`, or a Go
`panic` after logging `message` (a Go panic is not an `os.Exit`). -/
inductive StartupOutcome where
  | ok (config : Config)
  | exit (code : Nat) (message : String)
  | panic (message : String)
deriving Repr

/-- `strings.TrimRight(s, "/\\")`: remove every trailing slash or
backslash. -/
def trim_right_slashes (s : String) : String :=
  String.mk ((s.data.reverse.dropWhile (fun c => c == '/' || c == '\\')).reverse)

/-- All-decimal-digit parse used by `go_atoi`. -/
def parse_digits (cs : List Char) : Option Nat :=
  if cs = [] then none
  else if cs.all (fun c => c.isDigit) then
    some (cs.foldl (fun acc c => acc * 10 + (c.toNat - 48)) 0)
  else none

/-- `strconv.Atoi`: optional sign, at least one digit, nothing else, and
the value must fit a 64-bit `int`; `none` models `err != nil`. -/
def go_atoi (s : String) : Option Int :=
  match s.data with
  | [] => none
  | c :: rest =>
    let signed : Bool × List Char :=
      if c = '-' then (true, rest)
      else if c = '+' then (false, rest)
      else (false, c :: rest)
    match parse_digits signed.2 with
    | none => none
    | some n =>
      if signed.1 then
        if n ≤ 2 ^ 63 then some (-(n : Int)) else none
      else
        if n ≤ 2 ^ 63 - 1 then some (n : Int) else none

/-- `set_environment_variables` of vopr_organizer/main.go: the four
required variables are read in order; a missing or empty one is logged and
the process exits with code 1; a `NUM_VOPRS` or `CURRENT_VOPR` that does
not parse as an integer is logged and the process panics; a parsed value
that is not positive is logged and the process exits with code 1. -/
def set_environment_variables (env : Env) : StartupOutcome :=
  match env "TIGERBEETLE_DIRECTORY" with
  | none => .exit 1 "Could not find TIGERBEETLE_DIRECTORY environmental variable"
  | some tb =>
    if tb ≠ "" then
      let tigerbeetle_directory := trim_right_slashes tb
      match env "REPOSITORY_URL" with
      | none => .exit 1 "Could not find REPOSITORY_URL environmental variable"
      | some ru =>
        if ru ≠ "" then
          match env "NUM_VOPRS" with
          | none => .exit 1 "Could not find NUM_VOPRS environmental variable"
          | some nv =>
            if nv ≠ "" then
              match go_atoi nv with
              | none => .panic "unable to convert num_voprs to a an integer value"
              | some num_voprs =>
                if num_voprs ≤ 0 then
                  .exit 1 "NUM_VOPRS must be an integer greater than 0"
                else
                  match env "CURRENT_VOPR" with
                  | none => .exit 1 "Could not find CURRENT_VOPR environmental variable"
                  | some cv =>
                    if cv ≠ "" then
                      match go_atoi cv with
                      | none => .panic "unable to convert current_vopr to a an integer value"
                      | some current_vopr =>
                        if current_vopr ≤ 0 then
                          .exit 1 "CURRENT_VOPR must be an integer greater than 0"
                        else
                          .ok ⟨tigerbeetle_directory, ru, num_voprs, current_vopr⟩
                    else .exit 1 "CURRENT_VOPR was empty"
            else .exit 1 "NUM_VOPRS was empty"
        else .exit 1 "REPOSITORY_URL was empty"
    else .exit 1 "TIGERBEETLE_DIRECTORY was empty"

/-- The exit code of an `os.Exit` termination, `none` when the process did
not terminate through `os.Exit`. -/
def exit_code_of : StartupOutcome → Option Nat
  | .exit code _ => some code
  | _ => none

/-- An environment whose `NUM_VOPRS` is not an integer (all four
variables are present and non-empty). -/
def env_bad_num_voprs : Env := fun name =>
  if name = "TIGERBEETLE_DIRECTORY" then some "/home/tb"
  else if name = "REPOSITORY_URL" then some "https://api.example/repo"
  else if name = "NUM_VOPRS" then some "x"
  else if name = "CURRENT_VOPR" then some "1"
  else none


/-! ## Scheduler: `get_commit_hashes` (the unnamed revision of
vopr_organizer/main.go, src/unnamed/part_001)

`get_pull_requests(num_posts, page_number)` and `get_commits(branch)` hit
the GitHub API; they are modelled as the oracles `pages` (page number to
the page's pull requests) and `resolve` (branch name to its head commit,
`""` when the lookup returns nothing). -/

/-- A pull-request label (`Label{Name}`). -/
structure Label where
  name : String
deriving DecidableEq, Repr

/-- The head ref of a pull request (`Head{Label}`), in the GitHub format
`owner:branch_name`. -/
structure Head where
  label : String
deriving DecidableEq, Repr

/-- A pull request as unmarshalled by the organizer (`Issue`). -/
structure Issue where
  labels : List Label
  head : Head
deriving DecidableEq, Repr

/-- `strings.Cut(s, ":")`: split at the first colon;
`(before, after, found)`. -/
def cut_colon_list : List Char → Option (List Char × List Char)
  | [] => none
  | c :: cs =>
    if c = ':' then some ([], cs)
    else
      match cut_colon_list cs with
      | none => none
      | some (before, after) => some (c :: before, after)

/-- `strings.Cut` on strings: the pair and whether the separator was
found. -/
def cut_colon (s : String) : String × String × Bool :=
  match cut_colon_list s.data with
  | none => (s, "", false)
  | some (before, after) => (String.mk before, String.mk after, true)

/-- The per-pull-request body of the enumeration loop: the label loop
keeps a pull request whose labels contain "vopr" (breaking at the first
hit), cuts the head label at the colon, and resolves the branch name to
its head commit; the commit is kept when every step produced something. -/
def process_issue (resolve : String → String) (issue : Issue) : Option String :=
  if issue.labels.any (fun label => label.name == "vopr") then
    let cut := cut_colon issue.head.label
    if cut.2.2 && cut.2.1 != "" then
      let commit := resolve cut.2.1
      if commit != "" then some commit else none
    else none
  else none

/-- The inner `for _, element := range pull_requests` loop of
`get_commit_hashes`: process the page's pull requests in order, appending
kept commits, and break as soon as `num_voprs - 1` commits have been
collected. -/
def process_page (resolve : String → String) (target : Nat) :
    List Issue → List String → List String
  | [], acc => acc
  | issue :: rest, acc =>
    let acc2 :=
      match process_issue resolve issue with
      | some commit => acc ++ [commit]
      | none => acc
    if acc2.length = target then acc2 else process_page resolve target rest acc2

/-- The outer paging loop of `get_commit_hashes`: while fewer than
`target = num_voprs - 1` commits are collected, fetch the next page,
process it, and stop when the page held fewer than `num_posts = 30`
entries.  Returns the commits and the list of fetched page numbers;
`fuel` bounds the iteration count of the otherwise unbounded Go loop. -/
def get_commit_hashes_loop (pages : Nat → List Issue) (resolve : String → String)
    (target : Nat) : Nat → Nat → List String → List String × List Nat
  | 0, _, acc => (acc, [])
  | fuel + 1, i, acc =>
    if acc.length < target then
      let page := pages i
      let acc2 := process_page resolve target page acc
      if page.length < 30 then (acc2, [i])
      else
        let rest := get_commit_hashes_loop pages resolve target fuel (i + 1) acc2
        (rest.1, i :: rest.2)
    else (acc, [])

/-- `get_commit_hashes` of the unnamed organizer revision: collect up to
`num_voprs - 1` head commits of open pull requests labelled "vopr",
paging from page 1. -/
def get_commit_hashes (pages : Nat → List Issue) (resolve : String → String)
    (num_voprs : Nat) (fuel : Nat) : List String × List Nat :=
  get_commit_hashes_loop pages resolve (num_voprs - 1) fuel 1 []

/-! ## Scheduler: the tail of `main` (vopr_organizer/main.go) -/

/-- What the end of `main` does with the assignment list. -/
inductive MainAction where
  | checkout (branch : String)
  | no_action
  | index_panic
deriving DecidableEq, Repr

/-- The guarded indexing at the end of `main`:
`if current_vopr <= len(vopr_assignments) && current_vopr >= 1` then
`checkout_branch(vopr_assignments[current_vopr-1], ...)`, else nothing.
An out-of-range Go slice index would panic, modelled by `index_panic`. -/
def main_checkout (current_vopr : Nat) (vopr_assignments : List String) : MainAction :=
  if current_vopr ≤ vopr_assignments.length ∧ 1 ≤ current_vopr then
    match vopr_assignments.get? (current_vopr - 1) with
    | some branch => .checkout branch
    | none => .index_panic
  else .no_action


end VoprHub

namespace VoprHub

/-- C1: the wire layout of the worker report.  The claim states the worker
transmits 45 bytes whose first 16 bytes are a truncated hash; the byte
array `send_report` actually writes is 29 bytes long (bug tag, big-endian
seed, commit) with no checksum, shown here at a concrete report. -/
theorem send_report_byte_array_is_29_bytes :
    send_report_byte_array Bug.correctness 0 (List.replicate 20 0)
        = 1 :: (List.replicate 8 0 ++ List.replicate 20 0) ∧
    (send_report_byte_array Bug.correctness 0 (List.replicate 20 0)).length = 29 ∧
    (send_report_byte_array Bug.correctness 0 (List.replicate 20 0)).length ≠ 45 := by
  refine ⟨rfl, rfl, by decide⟩

/-- C2: the exit-code mapping of `run_simulator`: 0 is no bug, the `Bug`
codes are exactly 127 (crash), 128 (liveness), 129 (correctness), and any
other exit code is the fatal executor branch. -/
theorem exit_code_result_spec : ∀ exit_code : Nat,
    (exit_code_result exit_code = .no_bug ↔ exit_code = 0) ∧
    (∀ b : Bug, exit_code_result exit_code = .bug b ↔ exit_code = bug_exit_code b) ∧
    (exit_code_result exit_code = .fatal_unexpected ↔
      (exit_code ≠ 0 ∧ ∀ b : Bug, exit_code ≠ bug_exit_code b)) := by
  intro c
  unfold exit_code_result
  split_ifs with h1 h2 h3 h4 <;>
    refine ⟨by simp_all, fun b => by cases b <;> simp_all [bug_exit_code], ?_⟩
  · simp_all
  · subst h2
    simp only [bug_exit_code]
    exact ⟨by simp, fun hcontra => absurd (hcontra.2 .crash) (by simp [bug_exit_code])⟩
  · subst h3
    exact ⟨by simp, fun hcontra => absurd (hcontra.2 .liveness) (by simp [bug_exit_code])⟩
  · subst h4
    exact ⟨by simp, fun hcontra => absurd (hcontra.2 .correctness) (by simp [bug_exit_code])⟩
  · refine ⟨fun _ => ⟨h1, fun b => ?_⟩, fun _ => rfl⟩
    cases b <;> simp_all [bug_exit_code]

/-- C3 counterexample: a connection failure during `send_report` does not
let the worker move on; `send_report` reaches `fatal`, which exits the
process with code 1 (and `fatal_exit` is not a `completed` result). -/
theorem send_report_connect_failure_is_fatal :
    send_report_control { connect_ok := false, write_ok := true, read_reply := some 1 }
        = .fatal_exit 1 ∧
    SendResult.fatal_exit 1 ≠ SendResult.completed true ∧
    SendResult.fatal_exit 1 ≠ SendResult.completed false := by
  refine ⟨rfl, by decide, by decide⟩

/-- C3 amended: every failing step of `send_report` (connect, write, or
reply read) terminates the worker through `fatal` with exit code 1 instead
of logging and moving on. -/
theorem send_report_failure_fatal (t : TcpAttempt)
    (h : t.connect_ok = false ∨ t.write_ok = false ∨ t.read_reply = none) :
    send_report_control t = .fatal_exit 1 := by
  obtain ⟨c, w, r⟩ := t
  cases c <;> cases w <;> rcases r with _ | n <;> simp_all [send_report_control]

/-- Witness for the amended C3 theorem at a concrete failing attempt. -/
theorem send_report_failure_fatal_witness :
    send_report_control { connect_ok := true, write_ok := true, read_reply := none }
        = .fatal_exit 1 :=
  send_report_failure_fatal
    { connect_ok := true, write_ok := true, read_reply := none } (Or.inr (Or.inr rfl))

lemma exit_code_result_eq_bug {c : Nat} {b : Bug}
    (h : exit_code_result c = .bug b) : c = bug_exit_code b := by
  unfold exit_code_result at h
  split_ifs at h <;> cases h <;> simp_all [bug_exit_code]

/-- C4: when the ReleaseSafe run of a seed exits with a bug code, the
worker reruns the same seed in Debug mode, panics when the Debug run does
not reproduce the same bug code, and any report transmission happens only
after the Debug rerun. -/
theorem run_simulator_rerun_spec (exitOf : Mode → Nat) (b : Bug)
    (h : exit_code_result (exitOf .ReleaseSafe) = .bug b) :
    (run_simulator_release_safe exitOf true).2.take 2
        = [.child_run .ReleaseSafe, .child_run .Debug] ∧
    (exitOf .Debug ≠ exitOf .ReleaseSafe →
      (run_simulator_release_safe exitOf true).1 = .panicked) ∧
    (∀ i : Nat, ∀ b2 : Bug,
      (run_simulator_release_safe exitOf true).2.get? i = some (.report_sent b2) →
      ∃ j : Nat, j < i ∧
        (run_simulator_release_safe exitOf true).2.get? j = some (.child_run .Debug)) ∧
    (exitOf .Debug = exitOf .ReleaseSafe →
      (run_simulator_release_safe exitOf true).1 = .returned (some b) ∧
        Event.report_sent b ∈ (run_simulator_release_safe exitOf true).2) := by
  have hrs := exit_code_result_eq_bug h
  rcases hd : exit_code_result (exitOf .Debug) with _ | b2 | _
  · -- Debug run passed: `.?` panics
    refine ⟨?_, fun _ => ?_, ?_, fun heq => ?_⟩
    · simp [run_simulator_release_safe, run_simulator_debug, h, hd]
    · simp [run_simulator_release_safe, run_simulator_debug, h, hd]
    · intro i b2 hget
      exfalso
      simp only [run_simulator_release_safe, run_simulator_debug, h, hd] at hget
      match i with
      | 0 => simp at hget
      | 1 => simp at hget
      | n + 2 => simp [List.get?] at hget
    · exfalso
      rw [heq, hrs] at hd
      rw [hrs] at h
      rw [h] at hd
      exact absurd hd (by simp)
  · -- Debug run found bug b2
    have hdc := exit_code_result_eq_bug hd
    by_cases hbb : b2 = b
    · subst hbb
      refine ⟨?_, fun hne => ?_, ?_, fun _ => ?_⟩
      · simp [run_simulator_release_safe, run_simulator_debug, h, hd]
      · exact absurd (hdc.trans hrs.symm) hne
      · intro i b3 hget
        simp only [run_simulator_release_safe, run_simulator_debug, h, hd,
          if_pos rfl] at hget ⊢
        refine ⟨1, ?_, ?_⟩
        · match i with
          | 0 => simp at hget
          | 1 => simp at hget
          | 2 => omega
          | n + 3 => simp [List.get?] at hget
        · simp
      · constructor
        · simp [run_simulator_release_safe, run_simulator_debug, h, hd]
        · simp [run_simulator_release_safe, run_simulator_debug, h, hd]
    · refine ⟨?_, fun _ => ?_, ?_, fun heq => ?_⟩
      · simp [run_simulator_release_safe, run_simulator_debug, h, hd, hbb]
      · simp [run_simulator_release_safe, run_simulator_debug, h, hd, hbb]
      · intro i b3 hget
        simp only [run_simulator_release_safe, run_simulator_debug, h, hd] at hget ⊢
        refine ⟨1, ?_, ?_⟩
        · match i with
          | 0 => simp [hbb] at hget
          | 1 => simp [hbb] at hget
          | 2 => omega
          | n + 3 => simp [hbb, List.get?] at hget
        · simp [hbb]
      · exfalso
        apply hbb
        have hcodes : bug_exit_code b2 = bug_exit_code b := by rw [← hdc, heq, hrs]
        cases b2 <;> cases b <;> simp_all [bug_exit_code]
  · -- Debug run had an unexpected exit code
    refine ⟨?_, fun _ => ?_, ?_, fun heq => ?_⟩
    · simp [run_simulator_release_safe, run_simulator_debug, h, hd]
    · simp [run_simulator_release_safe, run_simulator_debug, h, hd]
    · intro i b2 hget
      exfalso
      simp only [run_simulator_release_safe, run_simulator_debug, h, hd] at hget
      match i with
      | 0 => simp at hget
      | 1 => simp at hget
      | n + 2 => simp [List.get?] at hget
    · exfalso
      rw [heq, hrs] at hd
      rw [hrs] at h
      rw [h] at hd
      exact absurd hd (by simp)

/-- Witness for the rerun theorem: a seed whose ReleaseSafe run exits 127
(crash) and whose Debug rerun also exits 127. -/
theorem run_simulator_rerun_spec_witness :
    (run_simulator_release_safe (fun _ => 127) true).2.take 2
        = [.child_run .ReleaseSafe, .child_run .Debug] ∧
    ((fun (_ : Mode) => 127) Mode.Debug ≠ (fun (_ : Mode) => 127) Mode.ReleaseSafe →
      (run_simulator_release_safe (fun _ => 127) true).1 = .panicked) ∧
    (∀ i : Nat, ∀ b2 : Bug,
      (run_simulator_release_safe (fun _ => 127) true).2.get? i
          = some (.report_sent b2) →
      ∃ j : Nat, j < i ∧
        (run_simulator_release_safe (fun _ => 127) true).2.get? j
            = some (.child_run .Debug)) ∧
    ((fun (_ : Mode) => 127) Mode.Debug = (fun (_ : Mode) => 127) Mode.ReleaseSafe →
      (run_simulator_release_safe (fun _ => 127) true).1
          = .returned (some Bug.crash) ∧
        Event.report_sent Bug.crash ∈ (run_simulator_release_safe (fun _ => 127) true).2) :=
  run_simulator_rerun_spec (fun _ => 127) Bug.crash (by decide)

end VoprHub


namespace VoprHub

lemma round_robin_blocks_zero (bs : List String) : round_robin_blocks 0 bs 0 = [] := by
  induction bs with
  | nil => rfl
  | cons b bs ih => simp [round_robin_blocks, ih]

lemma round_robin_blocks_length (repeats : Nat) (bs : List String) (rem : Nat)
    (h : rem ≤ bs.length) :
    (round_robin_blocks repeats bs rem).length = bs.length * repeats + rem := by
  induction bs generalizing rem with
  | nil =>
    have : rem = 0 := by simpa using h
    subst this
    simp [round_robin_blocks]
  | cons b bs ih =>
    rcases rem with _ | rr
    · simp [round_robin_blocks, ih 0 (Nat.zero_le _), Nat.succ_mul]
      ring
    · have hrr : rr ≤ bs.length := by simpa using h
      simp [round_robin_blocks, ih rr hrr, Nat.succ_mul]
      ring

lemma assign_loop_eq (branches : List String) (num_voprs repeats : Nat) :
    ∀ (fuel k i rem : Nat) (acc : List String),
      k ≤ branches.length →
      rem ≤ branches.length - k →
      i + (branches.length - k) * repeats + rem = num_voprs →
      rem + (branches.length - k) * repeats ≤ fuel →
      assign_loop branches num_voprs repeats fuel i rem k acc
        = acc ++ round_robin_blocks repeats (branches.drop k) rem := by
  intro fuel
  induction fuel with
  | zero =>
    intro k i rem acc hk hrem hsum hfuel
    have h0 : rem = 0 ∧ (branches.length - k) * repeats = 0 := by omega
    obtain ⟨hr0, hdr0⟩ := h0
    subst hr0
    rcases Nat.mul_eq_zero.mp hdr0 with hd0 | hrep0
    · have : branches.drop k = [] := by
        rw [List.drop_eq_nil_iff]
        omega
      simp [assign_loop, this, round_robin_blocks]
    · subst hrep0
      simp [assign_loop, round_robin_blocks_zero]
  | succ fuel ih =>
    intro k i rem acc hk hrem hsum hfuel
    rcases Nat.eq_zero_or_pos (branches.length - k) with hd0 | hdpos
    · -- no branches left: i = num_voprs, the guard is false
      have hr0 : rem = 0 := by omega
      subst hr0
      have hi : i = num_voprs := by
        rw [hd0] at hsum
        omega
      have hdrop : branches.drop k = [] := by
        rw [List.drop_eq_nil_iff]
        omega
      simp [assign_loop, hi, hdrop, round_robin_blocks]
    · -- at least one branch left
      obtain ⟨dd, hdd⟩ : ∃ dd, branches.length - k = dd + 1 :=
        ⟨branches.length - k - 1, by omega⟩
      have hklt : k < branches.length := by omega
      have hmul : (dd + 1) * repeats = dd * repeats + repeats := Nat.succ_mul dd repeats
      have hgetd : branches.getD k "" = branches[k] := by
        simp [List.getD, List.getElem?_eq_getElem hklt]
      have hdrop : branches.drop k = branches[k] :: branches.drop (k + 1) :=
        List.drop_eq_getElem_cons hklt
      have hdk1 : branches.length - (k + 1) = dd := by omega
      rcases Nat.eq_zero_or_pos (repeats + rem) with hz | hpos
      · -- repeats = 0 and rem = 0: guard false, nothing left to place
        have hrep0 : repeats = 0 := by omega
        have hr0 : rem = 0 := by omega
        subst hrep0; subst hr0
        have hi : i = num_voprs := by omega
        simp [assign_loop, hi, round_robin_blocks_zero]
      · -- the guard holds
        have hilt : i < num_voprs := by
          rw [hdd] at hsum
          omega
        rcases Nat.eq_zero_or_pos rem with hr0 | hrpos
        · -- no remainders: append `repeats` copies and advance
          subst hr0
          have hreppos : 0 < repeats := by omega
          rw [assign_loop, if_pos hilt, if_neg (by omega)]
          rw [ih (k + 1) (i + repeats) 0 (acc ++ List.replicate repeats (branches.getD k ""))
            (by omega) (by omega)
            (by rw [hdk1]; rw [hdd, hmul] at hsum; omega)
            (by rw [hdk1]; rw [hdd, hmul] at hfuel; omega)]
          rw [hdrop, hgetd]
          simp [round_robin_blocks]
        · -- a remainder is placed: one extra copy, rem decreases
          rw [assign_loop, if_pos hilt, if_pos hrpos]
          rw [ih (k + 1) (i + repeats + 1) (rem - 1)
            ((acc ++ List.replicate repeats (branches.getD k "")) ++ [branches.getD k ""])
            (by omega) (by rw [hdk1]; omega)
            (by rw [hdk1]; rw [hdd, hmul] at hsum; omega)
            (by rw [hdk1]; rw [hdd, hmul] at hfuel; omega)]
          rw [hdrop, hgetd]
          simp [round_robin_blocks, if_pos hrpos]



/-- C5: for `num_voprs ≥ 1` and a non-empty branch list,
`get_vopr_assignments` yields "main" in slot 1 followed by the branches
distributed round-robin with the leftovers given to the earliest branches,
and the list has exactly `num_voprs` entries. -/
theorem get_vopr_assignments_spec (num_voprs : Nat) (vopr_branches : List String)
    (hn : 1 ≤ num_voprs) (hne : vopr_branches ≠ []) :
    get_vopr_assignments num_voprs vopr_branches
      = some ("main" :: round_robin_blocks ((num_voprs - 1) / vopr_branches.length)
          vopr_branches ((num_voprs - 1) % vopr_branches.length)) ∧
    ("main" :: round_robin_blocks ((num_voprs - 1) / vopr_branches.length)
        vopr_branches ((num_voprs - 1) % vopr_branches.length)).length = num_voprs := by
  have hnpos : 0 < vopr_branches.length := List.length_pos.mpr hne
  have hmod : (num_voprs - 1) % vopr_branches.length < vopr_branches.length :=
    Nat.mod_lt _ hnpos
  have hdm : vopr_branches.length * ((num_voprs - 1) / vopr_branches.length)
      + (num_voprs - 1) % vopr_branches.length = num_voprs - 1 :=
    Nat.div_add_mod (num_voprs - 1) vopr_branches.length
  constructor
  · unfold get_vopr_assignments go_div go_mod
    rw [if_pos hnpos, if_neg (by omega), if_neg (by omega)]
    show some (assign_loop vopr_branches num_voprs
        ((num_voprs - 1) / vopr_branches.length) num_voprs 1
        ((num_voprs - 1) % vopr_branches.length) 0 ["main"]) = _
    rw [assign_loop_eq vopr_branches num_voprs ((num_voprs - 1) / vopr_branches.length)
      num_voprs 0 1 ((num_voprs - 1) % vopr_branches.length) ["main"]
      (Nat.zero_le _) (by simp only [Nat.sub_zero]; omega)
      (by simp only [Nat.sub_zero]; omega) (by simp only [Nat.sub_zero]; omega)]
    rfl
  · rw [List.length_cons,
      round_robin_blocks_length _ _ _ (Nat.le_of_lt hmod)]
    omega

/-- C5 witness: four slots over two branches give
`["main", "a", "a", "b"]`. -/
theorem get_vopr_assignments_spec_witness :
    get_vopr_assignments 4 ["a", "b"]
      = some ("main" :: round_robin_blocks ((4 - 1) / (["a", "b"] : List String).length)
          ["a", "b"] ((4 - 1) % (["a", "b"] : List String).length)) ∧
    ("main" :: round_robin_blocks ((4 - 1) / (["a", "b"] : List String).length)
        ["a", "b"] ((4 - 1) % (["a", "b"] : List String).length)).length = 4 :=
  get_vopr_assignments_spec 4 ["a", "b"] (by decide) (by simp)

/-- C9: `get_vopr_assignments` never hits the division-by-zero panic (the
division and modulo sit under the `num_pull_requests > 0` guard), and an
empty branch list assigns "main" to every slot. -/
theorem get_vopr_assignments_no_division_by_zero :
    ∀ (num_voprs : Nat) (vopr_branches : List String),
      (get_vopr_assignments num_voprs vopr_branches).isSome = true ∧
      (vopr_branches = [] →
        get_vopr_assignments num_voprs vopr_branches
          = some (List.replicate num_voprs "main")) := by
  intro n bs
  match bs with
  | [] => exact ⟨rfl, fun _ => rfl⟩
  | b :: bs =>
    refine ⟨?_, fun hcontra => by cases hcontra⟩
    unfold get_vopr_assignments go_div go_mod
    rw [if_pos (by simp)]
    simp

/-- C10: the tail of `main` never indexes out of bounds: inside the guard
`current_vopr ≤ length ∧ 1 ≤ current_vopr` the access at
`current_vopr - 1` yields an entry, and outside the guard no checkout is
attempted. -/
theorem main_checkout_safe :
    ∀ (current_vopr : Nat) (vopr_assignments : List String),
      main_checkout current_vopr vopr_assignments ≠ .index_panic ∧
      (¬(1 ≤ current_vopr ∧ current_vopr ≤ vopr_assignments.length) →
        main_checkout current_vopr vopr_assignments = .no_action) ∧
      ((1 ≤ current_vopr ∧ current_vopr ≤ vopr_assignments.length) →
        ∃ branch, vopr_assignments.get? (current_vopr - 1) = some branch ∧
          main_checkout current_vopr vopr_assignments = .checkout branch) := by
  intro cv l
  by_cases hg : cv ≤ l.length ∧ 1 ≤ cv
  · have hlt : cv - 1 < l.length := by omega
    have hsome2 : l[cv - 1]? = some l[cv - 1] := List.getElem?_eq_getElem hlt
    have hsome : l.get? (cv - 1) = some l[cv - 1] := by
      rw [List.get?_eq_getElem?, hsome2]
    refine ⟨?_, fun hn => absurd ⟨hg.2, hg.1⟩ hn, fun _ => ⟨l[cv - 1], hsome, ?_⟩⟩ <;>
      simp [main_checkout, hg, hsome2]
  · refine ⟨?_, fun _ => ?_, fun hin => absurd ⟨hin.2, hin.1⟩ hg⟩ <;>
      simp [main_checkout, hg]


end VoprHub

namespace VoprHub

/-- C6: `checkout_branch` runs fetch, checkout and the branch check in
order, returns `ok` only when the verification output equals the requested
revision, and — whenever `git branch --show-current` faithfully reports
the working directory's HEAD — after `ok` the HEAD equals the requested
revision. -/
theorem checkout_branch_spec (g : Git) (branch : String) (s s2 : GitState)
    (hshow : ∀ st, g.show_current st = some st.head)
    (h : checkout_branch g branch s = some s2) :
    (∃ s1, g.fetch s = some s1 ∧ g.checkout branch s1 = some s2) ∧
    g.show_current s2 = some branch ∧
    s2.head = branch := by
  unfold checkout_branch at h
  rcases hf : g.fetch s with _ | s1 <;> rw [hf] at h <;> dsimp only at h
  · cases h
  · rcases hc : g.checkout branch s1 with _ | s2c <;> rw [hc] at h <;> dsimp only at h
    · cases h
    · rcases hs : g.show_current s2c with _ | cur <;> rw [hs] at h <;> dsimp only at h
      · cases h
      · by_cases hcur : cur = branch
        · rw [if_pos hcur] at h
          cases h
          have h2 := hshow s2
          rw [hs] at h2
          have hhead : s2.head = cur := (Option.some.inj h2).symm
          exact ⟨⟨s1, rfl, hc⟩, by rw [hs, hcur], hhead.trans hcur⟩
        · rw [if_neg hcur] at h
          cases h

/-- C6 witness: checking out "abc123" with a faithful git oracle from a
working copy at "main" succeeds and lands on "abc123". -/
theorem checkout_branch_spec_witness :
    (∃ s1, git_exact.fetch { head := "main" } = some s1 ∧
      git_exact.checkout "abc123" s1 = some { head := "abc123" }) ∧
    git_exact.show_current { head := "abc123" } = some "abc123" ∧
    GitState.head { head := "abc123" } = "abc123" :=
  checkout_branch_spec git_exact "abc123" { head := "main" } { head := "abc123" }
    (fun _ => rfl) rfl

end VoprHub

namespace VoprHub

/-- C7 counterexample: all four variables present and non-empty but
`NUM_VOPRS` not an integer is a configuration failure that terminates by
a Go panic, not through `os.Exit(1)`. -/
theorem non_integer_num_voprs_panics :
    set_environment_variables env_bad_num_voprs
        = .panic "unable to convert num_voprs to a an integer value" ∧
    exit_code_of (set_environment_variables env_bad_num_voprs) = none := by
  constructor <;> rfl

/-- C7 amended: a missing or empty required variable exits with code 1 and
a descriptive message, a non-positive `NUM_VOPRS` or `CURRENT_VOPR` exits
with code 1, every `os.Exit` of startup carries code 1 and a non-empty
message — but a non-integer `NUM_VOPRS` or `CURRENT_VOPR` panics instead
of exiting with code 1. -/
theorem set_environment_variables_spec : ∀ env : Env,
    (∀ code m, set_environment_variables env = .exit code m → code = 1 ∧ m ≠ "") ∧
    (env "TIGERBEETLE_DIRECTORY" = none →
      set_environment_variables env
        = .exit 1 "Could not find TIGERBEETLE_DIRECTORY environmental variable") ∧
    (env "TIGERBEETLE_DIRECTORY" = some "" →
      set_environment_variables env = .exit 1 "TIGERBEETLE_DIRECTORY was empty") ∧
    (∀ tb, env "TIGERBEETLE_DIRECTORY" = some tb → tb ≠ "" →
      ((env "REPOSITORY_URL" = none →
        set_environment_variables env
          = .exit 1 "Could not find REPOSITORY_URL environmental variable") ∧
      (env "REPOSITORY_URL" = some "" →
        set_environment_variables env = .exit 1 "REPOSITORY_URL was empty") ∧
      (∀ ru, env "REPOSITORY_URL" = some ru → ru ≠ "" →
        ((env "NUM_VOPRS" = none →
          set_environment_variables env
            = .exit 1 "Could not find NUM_VOPRS environmental variable") ∧
        (env "NUM_VOPRS" = some "" →
          set_environment_variables env = .exit 1 "NUM_VOPRS was empty") ∧
        (∀ nv, env "NUM_VOPRS" = some nv → nv ≠ "" →
          ((go_atoi nv = none →
            set_environment_variables env
              = .panic "unable to convert num_voprs to a an integer value") ∧
          (∀ v, go_atoi nv = some v → v ≤ 0 →
            set_environment_variables env
              = .exit 1 "NUM_VOPRS must be an integer greater than 0") ∧
          (∀ v, go_atoi nv = some v → 0 < v →
            ((env "CURRENT_VOPR" = none →
              set_environment_variables env
                = .exit 1 "Could not find CURRENT_VOPR environmental variable") ∧
            (env "CURRENT_VOPR" = some "" →
              set_environment_variables env = .exit 1 "CURRENT_VOPR was empty") ∧
            (∀ cv, env "CURRENT_VOPR" = some cv → cv ≠ "" →
              ((go_atoi cv = none →
                set_environment_variables env
                  = .panic "unable to convert current_vopr to a an integer value") ∧
              (∀ w, go_atoi cv = some w → w ≤ 0 →
                set_environment_variables env
                  = .exit 1 "CURRENT_VOPR must be an integer greater than 0") ∧
              (∀ w, go_atoi cv = some w → 0 < w →
                set_environment_variables env
                  = .ok ⟨trim_right_slashes tb, ru, v, w⟩))))))))))) := by
  intro env
  refine ⟨?_, ?_, ?_, ?_⟩
  · intro code m h
    unfold set_environment_variables at h
    repeat' split at h
    all_goals first
      | (cases h; exact ⟨rfl, by decide⟩)
      | cases h
  · intro h
    simp [set_environment_variables, h]
  · intro h
    simp [set_environment_variables, h]
  · intro tb htb htbne
    refine ⟨?_, ?_, ?_⟩
    · intro h
      simp [set_environment_variables, htb, htbne, h]
    · intro h
      simp [set_environment_variables, htb, htbne, h]
    · intro ru hru hrune
      refine ⟨?_, ?_, ?_⟩
      · intro h
        simp [set_environment_variables, htb, htbne, hru, hrune, h]
      · intro h
        simp [set_environment_variables, htb, htbne, hru, hrune, h]
      · intro nv hnv hnvne
        refine ⟨?_, ?_, ?_⟩
        · intro h
          simp [set_environment_variables, htb, htbne, hru, hrune, hnv, hnvne, h]
        · intro v hv hle
          simp [set_environment_variables, htb, htbne, hru, hrune, hnv, hnvne, hv, hle]
        · intro v hv hpos
          have hnle : ¬(v ≤ 0) := by omega
          refine ⟨?_, ?_, ?_⟩
          · intro h
            simp [set_environment_variables, htb, htbne, hru, hrune, hnv, hnvne, hv,
              hnle, h]
          · intro h
            simp [set_environment_variables, htb, htbne, hru, hrune, hnv, hnvne, hv,
              hnle, h]
          · intro cv hcv hcvne
            refine ⟨?_, ?_, ?_⟩
            · intro h
              simp [set_environment_variables, htb, htbne, hru, hrune, hnv, hnvne, hv,
                hnle, hcv, hcvne, h]
            · intro w hw hwle
              simp [set_environment_variables, htb, htbne, hru, hrune, hnv, hnvne, hv,
                hnle, hcv, hcvne, hw, hwle]
            · intro w hw hwpos
              have hwnle : ¬(w ≤ 0) := by omega
              simp [set_environment_variables, htb, htbne, hru, hrune, hnv, hnvne, hv,
                hnle, hcv, hcvne, hw, hwnle]

end VoprHub

namespace VoprHub

lemma process_page_mem {resolve : String → String} {target : Nat} :
    ∀ (page : List Issue) (acc : List String) (c : String),
      c ∈ process_page resolve target page acc →
      c ∈ acc ∨ ∃ issue ∈ page, process_issue resolve issue = some c := by
  intro page
  induction page with
  | nil =>
    intro acc c h
    exact Or.inl h
  | cons issue rest ih =>
    intro acc c h
    rcases hpi : process_issue resolve issue with _ | commit <;>
      simp only [process_page, hpi] at h
    · split at h
      · exact Or.inl h
      · rcases ih _ c h with hc | ⟨iss, hm, hs⟩
        · exact Or.inl hc
        · exact Or.inr ⟨iss, List.mem_cons_of_mem _ hm, hs⟩
    · split at h
      · rcases List.mem_append.mp h with hc | hc
        · exact Or.inl hc
        · have hcc : c = commit := by simpa using hc
          exact Or.inr ⟨issue, List.mem_cons_self _ _, by rw [hpi, hcc]⟩
      · rcases ih _ c h with hc | ⟨iss, hm, hs⟩
        · rcases List.mem_append.mp hc with hc | hc
          · exact Or.inl hc
          · have hcc : c = commit := by simpa using hc
            exact Or.inr ⟨issue, List.mem_cons_self _ _, by rw [hpi, hcc]⟩
        · exact Or.inr ⟨iss, List.mem_cons_of_mem _ hm, hs⟩

lemma process_page_length {resolve : String → String} {target : Nat} :
    ∀ (page : List Issue) (acc : List String),
      acc.length < target →
      (process_page resolve target page acc).length ≤ target := by
  intro page
  induction page with
  | nil =>
    intro acc h
    exact Nat.le_of_lt h
  | cons issue rest ih =>
    intro acc h
    rcases hpi : process_issue resolve issue with _ | commit <;>
      simp only [process_page, hpi]
    · split
      · next heq => exact Nat.le_of_eq heq
      · exact ih _ h
    · split
      · next heq => exact Nat.le_of_eq heq
      · next hne =>
        have hlt : (acc ++ [commit]).length < target := by
          have hl : (acc ++ [commit]).length = acc.length + 1 := by simp
          rw [hl] at hne ⊢
          omega
        exact ih _ hlt

end VoprHub

namespace VoprHub

lemma getLast?_cons_of_getLast? {α : Type} {l : List α} {a p : α}
    (h : l.getLast? = some p) : (a :: l).getLast? = some p := by
  cases l with
  | nil => cases h
  | cons b t =>
    rw [List.getLast?_cons_cons]
    exact h

lemma get_commit_hashes_loop_mem {pages : Nat → List Issue}
    {resolve : String → String} {target : Nat} :
    ∀ (fuel i : Nat) (acc : List String) (c : String),
      c ∈ (get_commit_hashes_loop pages resolve target fuel i acc).1 →
      c ∈ acc ∨ ∃ p ∈ (get_commit_hashes_loop pages resolve target fuel i acc).2,
        ∃ issue ∈ pages p, process_issue resolve issue = some c := by
  intro fuel
  induction fuel with
  | zero =>
    intro i acc c h
    exact Or.inl h
  | succ fuel ih =>
    intro i acc c h
    by_cases hg : acc.length < target
    · simp only [get_commit_hashes_loop, if_pos hg] at h ⊢
      by_cases hshort : (pages i).length < 30
      · rw [if_pos hshort] at h ⊢
        rcases process_page_mem _ _ _ h with hc | ⟨iss, hm, hs⟩
        · exact Or.inl hc
        · exact Or.inr ⟨i, by simp, iss, hm, hs⟩
      · rw [if_neg hshort] at h ⊢
        rcases ih (i + 1) (process_page resolve target (pages i) acc) c h with hc | hrec
        · rcases process_page_mem _ _ _ hc with hc2 | ⟨iss, hm, hs⟩
          · exact Or.inl hc2
          · exact Or.inr ⟨i, List.mem_cons_self _ _, iss, hm, hs⟩
        · rcases hrec with ⟨p, hp, iss, hm, hs⟩
          exact Or.inr ⟨p, List.mem_cons_of_mem _ hp, iss, hm, hs⟩
    · simp only [get_commit_hashes_loop, if_neg hg] at h
      exact Or.inl h

lemma get_commit_hashes_loop_length {pages : Nat → List Issue}
    {resolve : String → String} {target : Nat} :
    ∀ (fuel i : Nat) (acc : List String),
      (get_commit_hashes_loop pages resolve target fuel i acc).1.length
        ≤ max acc.length target := by
  intro fuel
  induction fuel with
  | zero =>
    intro i acc
    exact Nat.le_max_left _ _
  | succ fuel ih =>
    intro i acc
    by_cases hg : acc.length < target
    · simp only [get_commit_hashes_loop, if_pos hg]
      have hpl := @process_page_length resolve target (pages i) acc hg
      by_cases hshort : (pages i).length < 30
      · rw [if_pos hshort]
        exact Nat.le_trans hpl (Nat.le_max_right _ _)
      · rw [if_neg hshort]
        have := ih (i + 1) (process_page resolve target (pages i) acc)
        have hmax : max (process_page resolve target (pages i) acc).length target
            = target := Nat.max_eq_right hpl
        rw [hmax] at this
        exact Nat.le_trans this (Nat.le_max_right _ _)
    · simp only [get_commit_hashes_loop, if_neg hg]
      exact Nat.le_max_left _ _

lemma get_commit_hashes_loop_pages_consecutive {pages : Nat → List Issue}
    {resolve : String → String} {target : Nat} :
    ∀ (fuel i : Nat) (acc : List String),
      (get_commit_hashes_loop pages resolve target fuel i acc).2
        = List.range' i (get_commit_hashes_loop pages resolve target fuel i acc).2.length := by
  intro fuel
  induction fuel with
  | zero =>
    intro i acc
    rfl
  | succ fuel ih =>
    intro i acc
    by_cases hg : acc.length < target
    · simp only [get_commit_hashes_loop, if_pos hg]
      by_cases hshort : (pages i).length < 30
      · rw [if_pos hshort]
        rfl
      · rw [if_neg hshort]
        simp only [List.length_cons]
        rw [List.range'_succ i _ 1]
        exact congrArg (i :: ·) (ih (i + 1) _)
    · simp only [get_commit_hashes_loop, if_neg hg]
      rfl

lemma get_commit_hashes_loop_stop {pages : Nat → List Issue}
    {resolve : String → String} {target : Nat} :
    ∀ (fuel i : Nat) (acc : List String),
      acc.length ≤ target →
      (get_commit_hashes_loop pages resolve target fuel i acc).2.length < fuel →
      ((get_commit_hashes_loop pages resolve target fuel i acc).1.length = target ∨
        ∃ p, (get_commit_hashes_loop pages resolve target fuel i acc).2.getLast? = some p ∧
          (pages p).length < 30) := by
  intro fuel
  induction fuel with
  | zero =>
    intro i acc _ hlt
    exact absurd hlt (by simp)
  | succ fuel ih =>
    intro i acc hle hlt
    by_cases hg : acc.length < target
    · simp only [get_commit_hashes_loop, if_pos hg] at hlt ⊢
      by_cases hshort : (pages i).length < 30
      · rw [if_pos hshort]
        exact Or.inr ⟨i, rfl, hshort⟩
      · rw [if_neg hshort] at hlt ⊢
        simp only [List.length_cons] at hlt
        have hlt2 : (get_commit_hashes_loop pages resolve target fuel (i + 1)
            (process_page resolve target (pages i) acc)).2.length < fuel := by omega
        have hacc2 := @process_page_length resolve target (pages i) acc hg
        rcases ih (i + 1) _ hacc2 hlt2 with hl | ⟨p, hp, hps⟩
        · exact Or.inl hl
        · exact Or.inr ⟨p, getLast?_cons_of_getLast? hp, hps⟩
    · simp only [get_commit_hashes_loop, if_neg hg]
      exact Or.inl (Nat.le_antisymm hle (Nat.le_of_not_lt hg))

end VoprHub

namespace VoprHub

lemma process_issue_eq_some {resolve : String → String} {issue : Issue} {c : String}
    (h : process_issue resolve issue = some c) :
    issue.labels.any (fun label => label.name == "vopr") = true ∧
    (cut_colon issue.head.label).2.2 = true ∧
    (cut_colon issue.head.label).2.1 ≠ "" ∧
    resolve (cut_colon issue.head.label).2.1 = c ∧ c ≠ "" := by
  unfold process_issue at h
  dsimp only at h
  split_ifs at h with h1 h2 h3
  · have hc : resolve (cut_colon issue.head.label).2.1 = c := Option.some.inj h
    have h2' := h2
    rw [Bool.and_eq_true] at h2'
    refine ⟨h1, h2'.1, ?_, hc, ?_⟩
    · have := h2'.2
      simpa using this
    · rw [← hc]
      simpa using h3

/-- C8: the revision enumeration collects only head commits of
"vopr"-labelled pull requests, never more than `num_voprs - 1` of them,
fetches tracker pages consecutively from page 1, and (when the fuel bound
is not what stopped it) stops exactly because the requested count was
reached or a fetched page was shorter than the page size of 30. -/
theorem get_commit_hashes_spec (pages : Nat → List Issue) (resolve : String → String)
    (num_voprs fuel : Nat) :
    (∀ c ∈ (get_commit_hashes pages resolve num_voprs fuel).1,
      ∃ p ∈ (get_commit_hashes pages resolve num_voprs fuel).2,
        ∃ issue ∈ pages p, process_issue resolve issue = some c) ∧
    (∀ issue c, process_issue resolve issue = some c →
      issue.labels.any (fun label => label.name == "vopr") = true ∧
      (cut_colon issue.head.label).2.2 = true ∧
      (cut_colon issue.head.label).2.1 ≠ "" ∧
      resolve (cut_colon issue.head.label).2.1 = c ∧ c ≠ "") ∧
    (get_commit_hashes pages resolve num_voprs fuel).1.length ≤ num_voprs - 1 ∧
    (get_commit_hashes pages resolve num_voprs fuel).2
      = List.range' 1 (get_commit_hashes pages resolve num_voprs fuel).2.length ∧
    ((get_commit_hashes pages resolve num_voprs fuel).2.length < fuel →
      ((get_commit_hashes pages resolve num_voprs fuel).1.length = num_voprs - 1 ∨
        ∃ p, (get_commit_hashes pages resolve num_voprs fuel).2.getLast? = some p ∧
          (pages p).length < 30)) := by
  refine ⟨?_, fun issue c h => process_issue_eq_some h, ?_, ?_, ?_⟩
  · intro c hc
    rcases get_commit_hashes_loop_mem fuel 1 [] c hc with hfalse | hout
    · cases hfalse
    · exact hout
  · have := @get_commit_hashes_loop_length pages resolve (num_voprs - 1) fuel 1 []
    simpa using this
  · exact get_commit_hashes_loop_pages_consecutive fuel 1 []
  · intro hfuel
    exact get_commit_hashes_loop_stop fuel 1 [] (Nat.zero_le _) hfuel

end VoprHub
